import Mathlib

set_option maxRecDepth 16000

/-!
Verification of the telemetry-bench load generator
(`src/cmd/telemetry-bench.go`) against its natural-language design
specification.

The Go program is shallowly embedded below.  Conventions:

* Go slices are modelled as Lean `List`s.  Every slice the program
  constructs is built either with `make([]T, n)` (so `cap = len`) or as a
  slice literal (again `cap = len`), hence the source's `cap(...)` loop
  bounds coincide with `len(...)` and lists model both faithfully.
* Impure value-generating functions (`func() string`, reading the clock or
  the random source) are modelled as explicit state transformers
  `σ → String × σ` over an abstract state `σ`; the program's call order is
  preserved exactly, so invocation counts are observable in the state.
* A Go `panic` (out-of-range slice index) is modelled by `Option`:
  `none` is a crash.
* `log.Fatalf` / process termination is modelled with `Except`.
-/

namespace TelemetryBench

/-- A value-generating function of the plugin template
(Go `type pluginFunc = func() string`).  It may read and advance ambient
process state (clock, PRNG), modelled by the state parameter `σ`. -/
def PluginFunc (σ : Type) : Type := σ → String × σ

/-- The plugin template (Go `type plugin struct`, lines 58-68).  The Go
`hostname *string` back-reference is immutable once the hosts are built, so
it is modelled by the string value it points to. -/
structure plugin (σ : Type) where
  name : String
  hostname : String
  interval : Int
  values : List (PluginFunc σ)
  dstypes : List String
  dsnames : List String
  mtype : List String
  typeInstance : List String
  pluginInstance : List String

/-- A simulated host (Go `type host struct`, lines 70-73). -/
structure host (σ : Type) where
  name : String
  plugins : List (plugin σ)

/-- The comma-join performed by the source's write loops
(`if i > 0 sb.WriteString(",")` followed by the element). -/
def joinComma : List String → String
  | [] => ""
  | [s] => s
  | s :: rest => s ++ "," ++ joinComma rest

/-- Invoke the template's value functions in order (source lines 88-93),
threading the ambient state left to right. -/
def runValues {σ : Type} : List (PluginFunc σ) → σ → List String × σ
  | [], s => ([], s)
  | f :: fs, s =>
    let (v, s1) := f s
    let (vs, s2) := runValues fs s1
    (v :: vs, s2)

/-- One message payload as assembled by the `strings.Builder` writes of
`GetMetricMessage` (source lines 83-136), given the already-sampled value
strings `vals` and time string `timeStr` for this message. -/
def buildMsg {σ : Type} (m : plugin σ) (vals : List String) (timeStr : String)
    (typeOffset pluginInstOffset typeInstOffset : Nat) : String :=
  "[\x7b\"values\": [" ++ joinComma vals ++
  "], \"dstypes\": [" ++ joinComma (m.dstypes.map (fun d => "\"" ++ d ++ "\"")) ++
  "], \"dsnames\": [" ++ joinComma (m.dsnames.map (fun d => "\"" ++ d ++ "\"")) ++
  "], \"time\": " ++ timeStr ++
  ", \"interval\": " ++ toString m.interval ++
  ", \"host\": \"" ++ m.hostname ++
  "\", \"plugin\": \"" ++ m.name ++
  "\",\"plugin_instance\": \"" ++ m.pluginInstance.getD pluginInstOffset "" ++
  "\",\"type\": \"" ++ m.mtype.getD typeOffset "" ++
  "\",\"type_instance\": \"" ++ m.typeInstance.getD typeInstOffset "" ++
  "\"\x7d]"

/-- The index triples visited by the three nested loops of
`GetMetricMessage` (lines 80-82): `typeOffset` outermost, then
`pluginInstOffset`, then `typeInstOffset` innermost. -/
def indexTriples (T P I : Nat) : List (Nat × Nat × Nat) :=
  (List.range T).flatMap fun t =>
    (List.range P).flatMap fun p =>
      (List.range I).map fun i => (t, p, i)

/-- The loop body sequence of `GetMetricMessage`: for each visited index
triple, sample the value functions (lines 88-93), then read the clock for
the `time` field (line 116, modelled by `now`), then emit the assembled
payload. -/
def expandLoop {σ : Type} (m : plugin σ) (now : PluginFunc σ) :
    List (Nat × Nat × Nat) → σ → List String × σ
  | [], s => ([], s)
  | (t, p, i) :: rest, s =>
    let (vals, s1) := runValues m.values s
    let (timeStr, s2) := now s1
    let (msgs, s3) := expandLoop m now rest s2
    (buildMsg m vals timeStr t p i :: msgs, s3)

/-- `(m *plugin) GetMetricMessage()` (source lines 75-144): expands one
plugin template into the cartesian set of message payloads.  `now` models
the formatted `time.Now()` read performed for each message's `time` field. -/
def getMetricMessage {σ : Type} (m : plugin σ) (now : PluginFunc σ) (s : σ) :
    List String × σ :=
  expandLoop m now
    (indexTriples m.mtype.length m.pluginInstance.length m.typeInstance.length) s

theorem runValues_length {σ : Type} (fs : List (PluginFunc σ)) (s : σ) :
    (runValues fs s).1.length = fs.length := by
  induction fs generalizing s with
  | nil => rfl
  | cons f fs ih => simp [runValues, ih]

theorem expandLoop_length {σ : Type} (m : plugin σ) (now : PluginFunc σ)
    (l : List (Nat × Nat × Nat)) (s : σ) :
    (expandLoop m now l s).1.length = l.length := by
  induction l generalizing s with
  | nil => rfl
  | cons x rest ih =>
    obtain ⟨t, p, i⟩ := x
    simp [expandLoop, ih]

theorem length_indexTriples (T P I : Nat) :
    (indexTriples T P I).length = T * P * I := by
  unfold indexTriples
  rw [List.length_flatMap]
  have h1 : List.map (List.length ∘ fun t =>
      (List.range P).flatMap fun p => (List.range I).map fun i => (t, p, i))
      (List.range T) = List.replicate T (P * I) := by
    apply List.eq_replicate_iff.mpr
    refine ⟨by simp, ?_⟩
    intro b hb
    simp only [List.mem_map] at hb
    obtain ⟨t, _, rfl⟩ := hb
    simp only [Function.comp_apply]
    rw [List.length_flatMap]
    have h2 : List.map (List.length ∘ fun p =>
        (List.range I).map fun i => (t, p, i)) (List.range P) =
        List.replicate P I := by
      apply List.eq_replicate_iff.mpr
      refine ⟨by simp, ?_⟩
      intro b hb
      simp only [List.mem_map] at hb
      obtain ⟨p, _, rfl⟩ := hb
      simp
    rw [h2, List.sum_replicate, smul_eq_mul]
  rw [h1, List.sum_replicate, smul_eq_mul]
  ring

theorem mem_indexTriples {T P I : Nat} {t p i : Nat} :
    (t, p, i) ∈ indexTriples T P I ↔ t < T ∧ p < P ∧ i < I := by
  simp only [indexTriples, List.mem_flatMap, List.mem_map, List.mem_range,
    Prod.mk.injEq]
  constructor
  · rintro ⟨a, ha, b, hb, c, hc, rfl, rfl, rfl⟩
    exact ⟨ha, hb, hc⟩
  · rintro ⟨ht, hp, hi⟩
    exact ⟨t, ht, p, hp, i, hi, rfl, rfl, rfl⟩

/-!
## Host generation (`generateHosts`, source lines 156-201)

The ambient process state read by the generated templates' value functions
is modelled concretely by `World`: the elapsed wall-clock seconds since
process start (read by the uptime plugin, `time.Now().Sub(startTime)`) and
the stream of pending `rand.Float64()` draws, already formatted to the
fixed 4-decimal form produced by `strconv.FormatFloat(·, 'f', 4, 64)`.
-/

/-- Ambient process state visible to generated value functions. -/
structure World where
  elapsedSeconds : Int
  randFloats : List String

/-- `uptimeFunc` (source lines 146-150): formats the elapsed seconds since
process start; reads the clock, consumes no randomness. -/
def uptimeFunc : PluginFunc World :=
  fun w => (toString w.elapsedSeconds, w)

/-- `randomFloatFunc` (source lines 152-154): pops the next uniformly
random draw, already formatted as a fixed 4-decimal string. -/
def randomFloatFunc : PluginFunc World :=
  fun w => (w.randFloats.headD "0.0000", { w with randFloats := w.randFloats.tail })

/-- Zero-padded 3-wide decimal rendering, the `%03d` verb of the
`hostname%03d` / `metrics%03d` templates (source lines 50-51). -/
def pad3 (n : Nat) : String :=
  let s := toString n
  if s.length < 3 then String.mk (List.replicate (3 - s.length) '0') ++ s else s

/-- Go slice element assignment `arr[k] = v`; `none` models the index
out-of-range panic. -/
def listSet : List String → Nat → String → Option (List String)
  | [], _, _ => none
  | _ :: xs, 0, v => some (v :: xs)
  | x :: xs, n + 1, v => (listSet xs n v).map fun ys => x :: ys

/-- The fill loop `for k := 0; k < bound; k++ \x7b arr[k] = fmt(k) \x7d`
(source lines 184-194), counting down the `cnt` iterations that remain. -/
def fillFrom (fmt : Nat → String) : Nat → Nat → List String → Option (List String)
  | 0, _, arr => some arr
  | cnt + 1, k, arr =>
    match listSet arr k (fmt k) with
    | none => none
    | some arr2 => fillFrom fmt cnt (k + 1) arr2

/-- `make([]string, n)` followed by the fill loop running `k` from `0` to
`bound - 1`.  In the source the loop bound is `numTypes` for all three
axes, so `bound` can differ from the allocated length `n`. -/
def makeFill (n bound : Nat) (fmt : Nat → String) : Option (List String) :=
  fillFrom fmt bound 0 (List.replicate n "")

/-- Sequence a fallible construction over a list, stopping at the first
panic, preserving the source's iteration order. -/
def mapOpt {α β : Type} (f : α → Option β) : List α → Option (List β)
  | [] => some []
  | x :: xs =>
    match f x with
    | none => none
    | some y =>
      match mapOpt f xs with
      | none => none
      | some ys => some (y :: ys)

/-- `hostPrefix + fmt.Sprintf("hostname%03d", i)` (source line 160). -/
def hostName (hostPre : String) (i : Nat) : String :=
  hostPre ++ ("hostname" ++ pad3 i)

/-- The fixed uptime plugin installed at index 0 of every host's plugin
slice (source lines 167-177): single gauge metric sampled as elapsed
seconds since start.  Note the hard-coded interval 5. -/
def uptimePlugin (hName : String) : plugin World :=
  { name := "uptime", hostname := hName, interval := 5,
    values := [uptimeFunc], dstypes := ["gauge"], dsnames := ["value"],
    mtype := ["uptime"], typeInstance := [""], pluginInstance := [""] }

/-- The Go zero value of `plugin`, left in the last slot of the
`make([]plugin, numPlugins+1)` slice, which the fill loop
`for j := 1; j < numPlugins` never reaches.  Its `hostname` is a nil
pointer in Go; it is never dereferenced because the empty axes make its
expansion empty, so any placeholder string is faithful. -/
def zeroPlugin : plugin World :=
  { name := "", hostname := "", interval := 0,
    values := [], dstypes := [], dsnames := [],
    mtype := [], typeInstance := [], pluginInstance := [] }

/-- One synthetic plugin built by the body of the `j` loop (source lines
179-198).  All three axis fill loops run `k` up to `numTypes`; the
`typeInstance` and `pluginInstance` slices are nevertheless allocated with
their own lengths, so the construction panics (`none`) as soon as
`numTypes` exceeds either length. -/
def mkSynth (hName : String) (intervalSec : Int)
    (numTypes numTypeInstances numPluginInstances : Nat) (j : Nat) :
    Option (plugin World) :=
  match makeFill numTypes numTypes (fun k => "type" ++ toString k) with
  | none => none
  | some mt =>
    match makeFill numTypeInstances numTypes (fun k => "typInst" ++ toString k) with
    | none => none
    | some ti =>
      match makeFill numPluginInstances numTypes (fun k => "pluginInst" ++ toString k) with
      | none => none
      | some pli =>
        some { name := "metrics" ++ pad3 j, hostname := hName,
               interval := intervalSec,
               values := [randomFloatFunc], dstypes := ["derive"],
               dsnames := ["samples"],
               mtype := mt, typeInstance := ti, pluginInstance := pli }

/-- `generateHosts` (source lines 156-201).  Each host's plugin slice is
`make([]plugin, numPlugins+1)`: slot 0 is the uptime plugin, slots
`1 .. numPlugins-1` are the synthetic plugins, and (when `numPlugins ≥ 1`)
the final slot keeps its zero value. -/
def generateHosts (hostPre : String) (numHosts numPlugins : Nat)
    (intervalSec : Int) (numTypes numTypeInstances numPluginInstances : Nat) :
    Option (List (host World)) :=
  mapOpt (fun i =>
    let hName := hostName hostPre i
    match mapOpt (mkSynth hName intervalSec numTypes numTypeInstances
        numPluginInstances) (List.range' 1 (numPlugins - 1)) with
    | none => none
    | some synths =>
      some { name := hName,
             plugins := uptimePlugin hName :: synths ++
               (if numPlugins = 0 then [] else [zeroPlugin]) })
    (List.range numHosts)

theorem listSet_length {l l2 : List String} {k : Nat} {v : String}
    (h : listSet l k v = some l2) : l2.length = l.length := by
  induction l generalizing k l2 with
  | nil => simp [listSet] at h
  | cons x xs ih =>
    cases k with
    | zero =>
      simp only [listSet, Option.some.injEq] at h
      subst h; simp
    | succ n =>
      simp only [listSet, Option.map_eq_some'] at h
      obtain ⟨ys, hy, rfl⟩ := h
      simp [ih hy]

theorem listSet_isSome {l : List String} {k : Nat} (v : String)
    (h : k < l.length) : ∃ l2, listSet l k v = some l2 := by
  induction l generalizing k with
  | nil => simp at h
  | cons x xs ih =>
    cases k with
    | zero => exact ⟨v :: xs, rfl⟩
    | succ n =>
      obtain ⟨l2, hl2⟩ := ih (Nat.lt_of_succ_lt_succ h)
      exact ⟨x :: l2, by simp [listSet, hl2]⟩

theorem fillFrom_some (fmt : Nat → String) :
    ∀ (cnt k : Nat) (arr : List String), k + cnt ≤ arr.length →
    ∃ arr2, fillFrom fmt cnt k arr = some arr2 ∧ arr2.length = arr.length := by
  intro cnt
  induction cnt with
  | zero => intro k arr _; exact ⟨arr, rfl, rfl⟩
  | succ n ih =>
    intro k arr h
    obtain ⟨arr2, harr2⟩ := listSet_isSome (l := arr) (k := k) (fmt k) (by omega)
    obtain ⟨arr3, h3, hlen⟩ := ih (k + 1) arr2
      (by rw [listSet_length harr2]; omega)
    exact ⟨arr3, by simp [fillFrom, harr2, h3],
      by rw [hlen, listSet_length harr2]⟩

theorem makeFill_some (n bound : Nat) (fmt : Nat → String) (h : bound ≤ n) :
    ∃ l, makeFill n bound fmt = some l ∧ l.length = n := by
  obtain ⟨l, hl, hlen⟩ := fillFrom_some fmt bound 0 (List.replicate n "")
    (by simp [h])
  exact ⟨l, hl, by rw [hlen, List.length_replicate]⟩

theorem mapOpt_some {α β : Type} (f : α → Option β) (l : List α)
    (h : ∀ a ∈ l, ∃ b, f a = some b) :
    ∃ bs, mapOpt f l = some bs ∧ bs.length = l.length := by
  induction l with
  | nil => exact ⟨[], rfl, rfl⟩
  | cons x xs ih =>
    obtain ⟨y, hy⟩ := h x (List.mem_cons_self x xs)
    obtain ⟨ys, hys, hlen⟩ := ih fun a ha => h a (List.mem_cons_of_mem x ha)
    exact ⟨y :: ys, by simp [mapOpt, hy, hys], by simp [hlen]⟩

theorem mapOpt_mem {α β : Type} {f : α → Option β} {l : List α}
    {bs : List β} (h : mapOpt f l = some bs) :
    ∀ b ∈ bs, ∃ a ∈ l, f a = some b := by
  induction l generalizing bs with
  | nil =>
    simp only [mapOpt, Option.some.injEq] at h
    subst h; intro b hb; simp at hb
  | cons x xs ih =>
    simp only [mapOpt] at h
    cases hfx : f x with
    | none => rw [hfx] at h; exact absurd h (by simp)
    | some y =>
      rw [hfx] at h
      cases hrest : mapOpt f xs with
      | none => rw [hrest] at h; exact absurd h (by simp)
      | some ys =>
        rw [hrest] at h
        simp only [Option.some.injEq] at h
        subst h
        intro b hb
        rcases List.mem_cons.mp hb with rfl | hb
        · exact ⟨x, List.mem_cons_self x xs, hfx⟩
        · obtain ⟨a, ha, hfa⟩ := ih hrest b hb
          exact ⟨a, List.mem_cons_of_mem x ha, hfa⟩

theorem mapOpt_length {α β : Type} {f : α → Option β} {l : List α}
    {bs : List β} (h : mapOpt f l = some bs) : bs.length = l.length := by
  induction l generalizing bs with
  | nil =>
    simp only [mapOpt, Option.some.injEq] at h
    subst h; rfl
  | cons x xs ih =>
    simp only [mapOpt] at h
    cases hfx : f x with
    | none => rw [hfx] at h; exact absurd h (by simp)
    | some y =>
      rw [hfx] at h
      cases hrest : mapOpt f xs with
      | none => rw [hrest] at h; exact absurd h (by simp)
      | some ys =>
        rw [hrest] at h
        simp only [Option.some.injEq] at h
        subst h
        simp [ih hrest]

/-!
## Limit mode (`getMessagesLimit`, source lines 203-294)
-/

/-- The dummy plugin of limit mode (source lines 204-209): only `hostname`,
`name` and `interval` are set; every other field keeps its Go zero value,
in particular all three axes are `nil`. -/
def dummyPlugin (σ : Type) : plugin σ :=
  { name := "testPlugin", hostname := "testHost", interval := 10,
    values := [], dstypes := [], dsnames := [],
    mtype := [], typeInstance := [], pluginInstance := [] }

/-- `countSent` (paired with the ambient state) after `k` iterations of the
limit-mode send loop body (source lines 240-256): each iteration expands
the dummy plugin and increments `countSent` once per produced message. -/
def limitSentAfter {σ : Type} (now : PluginFunc σ) (s : σ) : Nat → Nat × σ
  | 0 => (0, s)
  | k + 1 =>
    let (c, s1) := limitSentAfter now s k
    let (msgs, s2) := getMetricMessage (dummyPlugin σ) now s1
    (c + msgs.length, s2)

/-- The count-bearing portion of the `Total: %d sent (...)` line printed at
the end of the limit run (source line 283). -/
def limitReport (countSent : Nat) : String :=
  "Total: " ++ toString countSent ++ " sent"

/-!
## Claims C1, C5, C6, C10
-/

/-- Claim C1: for every plugin template with axis lengths `T = len mtype`,
`P = len pluginInstance`, `I = len typeInstance`, `GetMetricMessage`
returns exactly `T*P*I` payloads, and an empty result when any axis length
is 0.  The embedding is total, so no error is raised. -/
theorem c1_expansion_count (σ : Type) (m : plugin σ) (now : PluginFunc σ)
    (s : σ) :
    ((getMetricMessage m now s).1).length =
      m.mtype.length * m.pluginInstance.length * m.typeInstance.length ∧
    (m.mtype.length = 0 ∨ m.pluginInstance.length = 0 ∨
        m.typeInstance.length = 0 →
      (getMetricMessage m now s).1 = []) := by
  have hlen : ((getMetricMessage m now s).1).length =
      m.mtype.length * m.pluginInstance.length * m.typeInstance.length := by
    simp only [getMetricMessage]
    rw [expandLoop_length, length_indexTriples]
  refine ⟨hlen, fun h => ?_⟩
  apply List.length_eq_zero.mp
  rw [hlen]
  rcases h with h | h | h <;> simp [h]

/-- A template with an empty `mtype` axis, used to instantiate C1. -/
def c1ZeroPlugin : plugin Unit :=
  { name := "p", hostname := "h", interval := 1, values := [],
    dstypes := [], dsnames := [], mtype := [], typeInstance := ["ti"],
    pluginInstance := ["pi"] }

/-- Witness for C1 at a concrete template whose `mtype` axis is empty:
the expansion short-circuits to the empty result. -/
theorem c1_expansion_count_witness :
    (getMetricMessage c1ZeroPlugin (fun s => ("0", s)) ()).1 = [] :=
  (c1_expansion_count Unit c1ZeroPlugin (fun s => ("0", s)) ()).2 (Or.inl rfl)

/-- Claim C5 as amended: under the no-panic side conditions forced by the
generation bug (claim C6), `generateHosts` returns exactly `hostCount`
hosts, but each host's plugin list has length `pluginsPerHost + 1`: the
uptime plugin, `pluginsPerHost - 1` synthetic plugins, and one trailing
zero-value plugin left over from the `make([]plugin, numPlugins+1)`
allocation. -/
theorem c5_generateHosts_shape (hostPre : String) (numHosts numPlugins : Nat)
    (intervalSec : Int) (numTypes numTypeInstances numPluginInstances : Nat)
    (hP : 1 ≤ numPlugins) (hTI : numTypes ≤ numTypeInstances)
    (hPI : numTypes ≤ numPluginInstances) :
    ∃ hs, generateHosts hostPre numHosts numPlugins intervalSec numTypes
        numTypeInstances numPluginInstances = some hs ∧
      hs.length = numHosts ∧
      ∀ h ∈ hs, ∃ synths,
        h.plugins = uptimePlugin h.name :: synths ++ [zeroPlugin] ∧
        synths.length = numPlugins - 1 ∧
        h.plugins.length = numPlugins + 1 := by
  have hsynth : ∀ (hName : String) (j : Nat),
      ∃ p, mkSynth hName intervalSec numTypes numTypeInstances
        numPluginInstances j = some p := by
    intro hName j
    obtain ⟨mt, hmt, _⟩ :=
      makeFill_some numTypes numTypes (fun k => "type" ++ toString k) le_rfl
    obtain ⟨ti, hti, _⟩ := makeFill_some numTypeInstances numTypes
      (fun k => "typInst" ++ toString k) hTI
    obtain ⟨pli, hpli, _⟩ := makeFill_some numPluginInstances numTypes
      (fun k => "pluginInst" ++ toString k) hPI
    exact ⟨_, by simp only [mkSynth, hmt, hti, hpli]; rfl⟩
  have hbody : ∀ i : Nat, ∃ h : host World,
      (let hName := hostName hostPre i
       match mapOpt (mkSynth hName intervalSec numTypes numTypeInstances
           numPluginInstances) (List.range' 1 (numPlugins - 1)) with
       | none => none
       | some synths =>
         some { name := hName,
                plugins := uptimePlugin hName :: synths ++
                  (if numPlugins = 0 then [] else [zeroPlugin]) }) = some h := by
    intro i
    obtain ⟨synths, hsy, _⟩ := mapOpt_some _ (List.range' 1 (numPlugins - 1))
      (fun j _ => hsynth (hostName hostPre i) j)
    exact ⟨_, by simp only [hsy]; rfl⟩
  obtain ⟨hs, hhs, hlen⟩ := mapOpt_some _ (List.range numHosts)
    (fun i _ => hbody i)
  refine ⟨hs, hhs, by simp [hlen], ?_⟩
  intro h hh
  obtain ⟨i, _, hfi⟩ := mapOpt_mem hhs h hh
  simp only at hfi
  cases hmo : mapOpt (mkSynth (hostName hostPre i) intervalSec numTypes
      numTypeInstances numPluginInstances) (List.range' 1 (numPlugins - 1)) with
  | none => rw [hmo] at hfi; exact absurd hfi (by simp)
  | some synths =>
    rw [hmo] at hfi
    simp only [Option.some.injEq] at hfi
    have hsl : synths.length = numPlugins - 1 := by
      rw [mapOpt_length hmo, List.length_range']
    have hne : ¬ numPlugins = 0 := by omega
    refine ⟨synths, ?_, hsl, ?_⟩
    · rw [← hfi]
      simp [hne]
    · rw [← hfi]
      simp only [if_neg hne]
      simp [hsl]
      omega

/-- Counterexample to C5 as stated: with `hostCount = 1` and
`pluginsPerHost = 1` (all axes 1) the generated host's plugin list has
length 2, not `pluginsPerHost = 1` — the trailing zero-value plugin is an
additional entry. -/
theorem c5_counterexample :
    (generateHosts "" 1 1 1 1 1 1).isSome = true ∧
    ((generateHosts "" 1 1 1 1 1 1).getD []).length = 1 ∧
    (((generateHosts "" 1 1 1 1 1 1).getD []).headD
      ⟨"", []⟩).plugins.length = 2 := by
  refine ⟨rfl, rfl, rfl⟩

/-- Witness for the amended C5 at `hostCount = 1`, `pluginsPerHost = 1`,
all axes 1. -/
theorem c5_generateHosts_shape_witness :
    ∃ hs, generateHosts "" 1 1 1 1 1 1 = some hs ∧
      hs.length = 1 ∧
      ∀ h ∈ hs, ∃ synths,
        h.plugins = uptimePlugin h.name :: synths ++ [zeroPlugin] ∧
        synths.length = 0 ∧
        h.plugins.length = 2 :=
  c5_generateHosts_shape "" 1 1 1 1 1 1 le_rfl le_rfl le_rfl

/-- Claim C6 (the code is wrong): the axis fill loops for `typeInstance`
and `pluginInstance` run `k` up to `numTypes` (source lines 188, 192), so
with `numTypes = 2` and `numTypeInstances = 1` the write
`typeInstance[1]` is out of range and host generation panics (`none`). -/
theorem c6_generateHosts_panics :
    generateHosts "" 1 2 1 2 1 1 = none := rfl

/-- Claim C10: the limit-mode dummy plugin has empty axes, so every
expansion call yields zero messages, `countSent` stays 0 after any number
of send-loop iterations, and the final report line states 0 sent. -/
theorem c10_limit_mode_sends_nothing (σ : Type) (now : PluginFunc σ)
    (s : σ) (k : Nat) :
    (getMetricMessage (dummyPlugin σ) now s).1 = [] ∧
    (limitSentAfter now s k).1 = 0 ∧
    limitReport (limitSentAfter now s k).1 = "Total: 0 sent" := by
  have hmsg : ∀ u : σ, getMetricMessage (dummyPlugin σ) now u = ([], u) :=
    fun u => rfl
  have hsent : ∀ n : Nat, limitSentAfter now s n = (0, s) := by
    intro n
    induction n with
    | zero => rfl
    | succ m ih => simp [limitSentAfter, ih, hmsg]
  refine ⟨by rw [hmsg s], by rw [hsent k],
    by rw [hsent k]; show limitReport 0 = "Total: 0 sent"; decide⟩

/-!
## Decoding produced payloads

A message payload is decoded by the grammar of the wire-payload shape
(spec section 6): each field is delimited by the fixed literal separators
of the payload, and the string fields are read up to their closing
delimiter.  On a payload whose embedded strings contain a delimiter
character (the source performs no JSON escaping) decoding fails or
mis-reads the field, which is exactly what a JSON parser would do.
-/

/-- The fields recovered from one payload. -/
structure Decoded where
  valuesStr : String
  dstypesStr : String
  dsnamesStr : String
  timeStr : String
  intervalStr : String
  host : String
  plugin : String
  plugin_instance : String
  mtype : String
  type_instance : String
deriving DecidableEq

/-- Consume an expected literal character sequence. -/
def stripPre : List Char → List Char → Option (List Char)
  | [], cs => some cs
  | _ :: _, [] => none
  | p :: ps, c :: cs => if c = p then stripPre ps cs else none

/-- Read characters up to (and consuming) the first occurrence of `d`. -/
def readUntilL (d : Char) : List Char → Option (List Char × List Char)
  | [] => none
  | c :: cs =>
    if c = d then some ([], cs)
    else
      match readUntilL d cs with
      | none => none
      | some (pre, rest) => some (c :: pre, rest)

/-- One decoding step per payload field: the fixed literal that precedes
the field, and the delimiter character that terminates it. -/
def decodeSteps : List (String × Char) :=
  [("[\x7b\"values\": [", ']'),
   (", \"dstypes\": [", ']'),
   (", \"dsnames\": [", ']'),
   (", \"time\": ", ','),
   (" \"interval\": ", ','),
   (" \"host\": \"", '\x22'),
   (", \"plugin\": \"", '\x22'),
   (",\"plugin_instance\": \"", '\x22'),
   (",\"type\": \"", '\x22'),
   (",\"type_instance\": \"", '\x22')]

/-- Run the decoding steps left to right, returning the decoded field
contents and the unconsumed remainder. -/
def decodeFields : List (String × Char) → List Char →
    Option (List (List Char) × List Char)
  | [], cs => some ([], cs)
  | (lit, d) :: steps, cs =>
    match stripPre lit.data cs with
    | none => none
    | some cs1 =>
      match readUntilL d cs1 with
      | none => none
      | some (fld, cs2) =>
        match decodeFields steps cs2 with
        | none => none
        | some (flds, rest) => some (fld :: flds, rest)

/-- Field-by-field decoder for the payload shape assembled by
`GetMetricMessage`. -/
def decodeL (cs0 : List Char) : Option Decoded :=
  match decodeFields decodeSteps cs0 with
  | none => none
  | some (flds, rest) =>
    match stripPre ("\x7d]").data rest with
    | none => none
    | some rest2 =>
      if rest2 = [] then
        match flds with
        | [vals, dst, dsn, tim, iv, hst, pl, pin, ty, tin] =>
          some ⟨String.mk vals, String.mk dst, String.mk dsn, String.mk tim,
            String.mk iv, String.mk hst, String.mk pl, String.mk pin,
            String.mk ty, String.mk tin⟩
        | _ => none
      else none

/-- Decode one payload string. -/
def decodeMsg (s : String) : Option Decoded := decodeL s.data

theorem string_data_append (s t : String) : (s ++ t).data = s.data ++ t.data :=
  rfl

theorem string_mk_data (s : String) : String.mk s.data = s := rfl

theorem stripPre_append (p r : List Char) : stripPre p (p ++ r) = some r := by
  induction p with
  | nil => rfl
  | cons c cs ih => simp [stripPre, ih]

theorem stripPre_self (p : List Char) : stripPre p p = some [] := by
  have := stripPre_append p []
  simpa using this

theorem readUntilL_append (d : Char) (s r : List Char) (h : d ∉ s) :
    readUntilL d (s ++ d :: r) = some (s, r) := by
  induction s with
  | nil => simp [readUntilL]
  | cons c cs ih =>
    have hcd : ¬ c = d := fun e => h (List.mem_cons.mpr (Or.inl e.symm))
    have hrest : d ∉ cs := fun hm => h (List.mem_cons_of_mem c hm)
    simp [readUntilL, hcd, ih hrest]

theorem not_mem_joinComma {c : Char} (hc : ¬ c = ',') :
    ∀ {l : List String}, (∀ s ∈ l, c ∉ s.data) → c ∉ (joinComma l).data := by
  intro l
  induction l with
  | nil => intro _ hm; simp [joinComma] at hm
  | cons s rest ih =>
    intro h hm
    cases rest with
    | nil =>
      exact h s (List.mem_singleton_self s) (by simpa [joinComma] using hm)
    | cons s2 rest2 =>
      rw [show joinComma (s :: s2 :: rest2) =
          s ++ "," ++ joinComma (s2 :: rest2) from rfl] at hm
      rw [string_data_append, string_data_append] at hm
      rcases List.mem_append.mp hm with h1 | h2
      · rcases List.mem_append.mp h1 with ha | hb
        · exact h s (by simp) ha
        · exact hc (by simpa using hb)
      · exact ih (fun x hx => h x (List.mem_cons_of_mem s hx)) h2

theorem not_mem_quoted {c : Char} (hc : ¬ c = '\x22') {s : String}
    (h : c ∉ s.data) : c ∉ ("\"" ++ s ++ "\"").data := by
  intro hm
  rw [string_data_append, string_data_append] at hm
  rcases List.mem_append.mp hm with h1 | h2
  · rcases List.mem_append.mp h1 with ha | hb
    · exact hc (by simpa using ha)
    · exact h hb
  · exact hc (by simpa using h2)

theorem runValues_mem {σ : Type} (fs : List (PluginFunc σ)) (s : σ) :
    ∀ v ∈ (runValues fs s).1, ∃ f ∈ fs, ∃ u : σ, v = (f u).1 := by
  induction fs generalizing s with
  | nil => intro v hv; simp [runValues] at hv
  | cons f fs ih =>
    intro v hv
    simp only [runValues] at hv
    rcases List.mem_cons.mp hv with rfl | hv2
    · exact ⟨f, List.mem_cons_self f fs, s, rfl⟩
    · obtain ⟨g, hg, u, rfl⟩ := ih (f s).2 v hv2
      exact ⟨g, List.mem_cons_of_mem f hg, u, rfl⟩

theorem expandLoop_mem {σ : Type} (m : plugin σ) (now : PluginFunc σ)
    (l : List (Nat × Nat × Nat)) (s : σ) :
    ∀ msg ∈ (expandLoop m now l s).1, ∃ tpi ∈ l, ∃ u : σ,
      msg = buildMsg m (runValues m.values u).1
        ((now (runValues m.values u).2).1) tpi.1 tpi.2.1 tpi.2.2 := by
  induction l generalizing s with
  | nil => intro msg hm; simp [expandLoop] at hm
  | cons x rest ih =>
    obtain ⟨t, p, i⟩ := x
    intro msg hm
    simp only [expandLoop] at hm
    rcases List.mem_cons.mp hm with rfl | hm2
    · exact ⟨(t, p, i), List.mem_cons_self _ _, s, rfl⟩
    · obtain ⟨tpi, htpi, u, rfl⟩ :=
        ih (now (runValues m.values s).2).2 msg hm2
      exact ⟨tpi, List.mem_cons_of_mem _ htpi, u, rfl⟩

/-- The shape of one encoded field: the preceding literal, the field
content, the terminating delimiter, and the rest of the payload. -/
def glue (lit : String) (f : List Char) (d : Char) (rest : List Char) :
    List Char :=
  lit.data ++ (f ++ d :: rest)

theorem decodeFields_cons (lit : String) {d : Char}
    {steps : List (String × Char)} {f rest : List Char}
    {flds : List (List Char)} {r : List Char}
    (hf : d ∉ f) (h2 : decodeFields steps rest = some (flds, r)) :
    decodeFields ((lit, d) :: steps) (glue lit f d rest) =
      some (f :: flds, r) := by
  simp only [glue, decodeFields, stripPre_append,
    readUntilL_append d f rest hf, h2]

/-- Decoding is a left inverse of payload construction, provided the
embedded strings avoid the delimiter characters the source never escapes. -/
theorem decodeMsg_buildMsg {σ : Type} (m : plugin σ) (vals : List String)
    (ts : String) (t p i : Nat)
    (h1 : ']' ∉ (joinComma vals).data)
    (h2 : ']' ∉ (joinComma (m.dstypes.map (fun d => "\"" ++ d ++ "\""))).data)
    (h3 : ']' ∉ (joinComma (m.dsnames.map (fun d => "\"" ++ d ++ "\""))).data)
    (h4 : ',' ∉ ts.data)
    (h5 : ',' ∉ (toString m.interval).data)
    (h6 : '\x22' ∉ m.hostname.data)
    (h7 : '\x22' ∉ m.name.data)
    (h8 : '\x22' ∉ (m.pluginInstance.getD p "").data)
    (h9 : '\x22' ∉ (m.mtype.getD t "").data)
    (h10 : '\x22' ∉ (m.typeInstance.getD i "").data) :
    decodeMsg (buildMsg m vals ts t p i) = some
      { valuesStr := joinComma vals,
        dstypesStr := joinComma (m.dstypes.map (fun d => "\"" ++ d ++ "\"")),
        dsnamesStr := joinComma (m.dsnames.map (fun d => "\"" ++ d ++ "\"")),
        timeStr := ts,
        intervalStr := toString m.interval,
        host := m.hostname,
        plugin := m.name,
        plugin_instance := m.pluginInstance.getD p "",
        mtype := m.mtype.getD t "",
        type_instance := m.typeInstance.getD i "" } := by
  have hc0 : decodeFields [] (("\x7d]" : String)).data =
      some ([], ("\x7d]" : String).data) := rfl
  have hc10 := decodeFields_cons ",\"type_instance\": \"" h10 hc0
  have hc9 := decodeFields_cons ",\"type\": \"" h9 hc10
  have hc8 := decodeFields_cons ",\"plugin_instance\": \"" h8 hc9
  have hc7 := decodeFields_cons ", \"plugin\": \"" h7 hc8
  have hc6 := decodeFields_cons " \"host\": \"" h6 hc7
  have hc5 := decodeFields_cons " \"interval\": " h5 hc6
  have hc4 := decodeFields_cons ", \"time\": " h4 hc5
  have hc3 := decodeFields_cons ", \"dsnames\": [" h3 hc4
  have hc2 := decodeFields_cons ", \"dstypes\": [" h2 hc3
  have hc1 := decodeFields_cons "[\x7b\"values\": [" h1 hc2
  have e2 : ("], \"dstypes\": [" : String).data =
      ']' :: (", \"dstypes\": [" : String).data := rfl
  have e3 : ("], \"dsnames\": [" : String).data =
      ']' :: (", \"dsnames\": [" : String).data := rfl
  have e4 : ("], \"time\": " : String).data =
      ']' :: (", \"time\": " : String).data := rfl
  have e5 : (", \"interval\": " : String).data =
      ',' :: (" \"interval\": " : String).data := rfl
  have e6 : (", \"host\": \"" : String).data =
      ',' :: (" \"host\": \"" : String).data := rfl
  have e7 : ("\", \"plugin\": \"" : String).data =
      '\x22' :: (", \"plugin\": \"" : String).data := rfl
  have e8 : ("\",\"plugin_instance\": \"" : String).data =
      '\x22' :: (",\"plugin_instance\": \"" : String).data := rfl
  have e9 : ("\",\"type\": \"" : String).data =
      '\x22' :: (",\"type\": \"" : String).data := rfl
  have e10 : ("\",\"type_instance\": \"" : String).data =
      '\x22' :: (",\"type_instance\": \"" : String).data := rfl
  have e11 : ("\"\x7d]" : String).data =
      '\x22' :: ("\x7d]" : String).data := rfl
  have hdata : (buildMsg m vals ts t p i).data =
      glue "[\x7b\"values\": [" (joinComma vals).data ']'
      (glue ", \"dstypes\": ["
        (joinComma (m.dstypes.map (fun d => "\"" ++ d ++ "\""))).data ']'
      (glue ", \"dsnames\": ["
        (joinComma (m.dsnames.map (fun d => "\"" ++ d ++ "\""))).data ']'
      (glue ", \"time\": " ts.data ','
      (glue " \"interval\": " (toString m.interval).data ','
      (glue " \"host\": \"" m.hostname.data '\x22'
      (glue ", \"plugin\": \"" m.name.data '\x22'
      (glue ",\"plugin_instance\": \"" (m.pluginInstance.getD p "").data '\x22'
      (glue ",\"type\": \"" (m.mtype.getD t "").data '\x22'
      (glue ",\"type_instance\": \"" (m.typeInstance.getD i "").data '\x22'
        ("\x7d]" : String).data))))))))) := by
    simp only [glue, buildMsg, string_data_append, e2, e3, e4, e5, e6, e7, e8,
      e9, e10, e11, List.append_assoc, List.cons_append]
  simp only [decodeMsg, decodeL, decodeSteps, hdata, hc1, stripPre_self]
  simp [string_mk_data]

theorem getD_mem_of_lt {l : List String} {n : Nat} (h : n < l.length) :
    l.getD n "" ∈ l := by
  rw [List.getD_eq_getElem l "" h]
  exact List.getElem_mem h

/-!
## Claims C2 and C8
-/

theorem runValues_counter (fs : List (PluginFunc Nat))
    (hv : ∀ f ∈ fs, ∀ n : Nat, (f n).2 = n + 1) (n : Nat) :
    (runValues fs n).2 = n + fs.length := by
  induction fs generalizing n with
  | nil => simp [runValues]
  | cons f fs ih =>
    simp only [runValues]
    rw [ih (fun g hg => hv g (List.mem_cons_of_mem f hg)) ((f n).2),
      hv f (List.mem_cons_self f fs) n]
    simp only [List.length_cons]
    omega

theorem expandLoop_counter (m : plugin Nat) (now : PluginFunc Nat)
    (hv : ∀ f ∈ m.values, ∀ n : Nat, (f n).2 = n + 1)
    (hn : ∀ n : Nat, (now n).2 = n)
    (l : List (Nat × Nat × Nat)) (n : Nat) :
    (expandLoop m now l n).2 = n + l.length * m.values.length := by
  induction l generalizing n with
  | nil => simp [expandLoop]
  | cons x rest ih =>
    obtain ⟨t, p, i⟩ := x
    simp only [expandLoop]
    rw [ih, hn, runValues_counter m.values hv n]
    simp only [List.length_cons]
    ring

/-- Claim C2 as amended: one `GetMetricMessage` call invokes each value
function once per produced message — `T*P*I * len(values)` invocations in
total, not once per call — because the value loop (source lines 88-93) sits
inside the triple axis loop.  Instantiated at the invocation-counting state
`σ := Nat`: each value call bumps the counter, the per-message time read
does not. -/
theorem c2_value_calls_per_message (m : plugin Nat) (now : PluginFunc Nat)
    (n0 : Nat)
    (hv : ∀ f ∈ m.values, ∀ n : Nat, (f n).2 = n + 1)
    (hn : ∀ n : Nat, (now n).2 = n) :
    (getMetricMessage m now n0).2 = n0 +
      (m.mtype.length * m.pluginInstance.length * m.typeInstance.length) *
        m.values.length := by
  simp only [getMetricMessage]
  rw [expandLoop_counter m now hv hn, length_indexTriples]

/-- An invocation-counting value function: returns the current count and
increments it. -/
def c2CountFunc : PluginFunc Nat := fun n => (toString n, n + 1)

/-- Two-message template (two metric types) with a single counting value
function. -/
def c2Plugin : plugin Nat :=
  { name := "p", hostname := "h", interval := 1, values := [c2CountFunc],
    dstypes := ["derive"], dsnames := ["samples"],
    mtype := ["t0", "t1"], typeInstance := ["ti"], pluginInstance := ["pi"] }

/-- A time read that leaves the counter unchanged. -/
def c2Now : PluginFunc Nat := fun n => ("0.0000", n)

/-- Witness for the amended C2: the two-message template drives the
invocation counter from 0 to `(2*1*1) * 1 = 2`. -/
theorem c2_value_calls_per_message_witness :
    (getMetricMessage c2Plugin c2Now 0).2 = 0 + (2 * 1 * 1) * 1 :=
  c2_value_calls_per_message c2Plugin c2Now 0
    (by
      intro f hf n
      rw [show c2Plugin.values = [c2CountFunc] from rfl,
        List.mem_singleton] at hf
      subst hf
      rfl)
    (fun n => rfl)

/-- Counterexample to C2 as stated: one expansion call of a template with
a single value function and two messages invokes the function twice (the
counter ends at 2, not 1), and the two produced payloads embed different
`values` fields ("0" and "1"), so the messages do not share an identical
values triple. -/
theorem c2_counterexample :
    (getMetricMessage c2Plugin c2Now 0).2 = 2 ∧
    ((getMetricMessage c2Plugin c2Now 0).1.map
      (fun s => (decodeMsg s).map Decoded.valuesStr)) =
      [some "0", some "1"] := by
  constructor
  · rfl
  · rfl

/-- Claim C8 as amended: decoding recovers the exact `host`, `plugin`,
`plugin_instance`, `type`, `type_instance` strings and the decimal
rendering of the `interval` integer, for templates whose embedded strings
avoid the delimiter characters that the source never escapes (no `"` in
the five name fields, no `]` in values/dstypes/dsnames, no `,` in the
time and interval renderings). -/
theorem c8_roundtrip (σ : Type) (m : plugin σ) (now : PluginFunc σ) (s : σ)
    (hv : ∀ f ∈ m.values, ∀ u : σ, ']' ∉ ((f u).1).data)
    (hdst : ∀ d ∈ m.dstypes, ']' ∉ d.data)
    (hdsn : ∀ d ∈ m.dsnames, ']' ∉ d.data)
    (htime : ∀ u : σ, ',' ∉ ((now u).1).data)
    (hint : ',' ∉ (toString m.interval).data)
    (hhost : '\x22' ∉ m.hostname.data)
    (hname : '\x22' ∉ m.name.data)
    (hpin : ∀ x ∈ m.pluginInstance, '\x22' ∉ x.data)
    (hty : ∀ x ∈ m.mtype, '\x22' ∉ x.data)
    (htin : ∀ x ∈ m.typeInstance, '\x22' ∉ x.data) :
    ∀ msg ∈ (getMetricMessage m now s).1,
      ∃ t p i, t < m.mtype.length ∧ p < m.pluginInstance.length ∧
        i < m.typeInstance.length ∧
        ∃ d, decodeMsg msg = some d ∧
          d.host = m.hostname ∧ d.plugin = m.name ∧
          d.plugin_instance = m.pluginInstance.getD p "" ∧
          d.mtype = m.mtype.getD t "" ∧
          d.type_instance = m.typeInstance.getD i "" ∧
          d.intervalStr = toString m.interval := by
  intro msg hmsg
  obtain ⟨tpi, htpi, u, rfl⟩ := expandLoop_mem m now _ s msg hmsg
  obtain ⟨t, p, i⟩ := tpi
  obtain ⟨ht, hp, hi⟩ := mem_indexTriples.mp htpi
  refine ⟨t, p, i, ht, hp, hi, ?_⟩
  have hjv : ']' ∉ (joinComma (runValues m.values u).1).data := by
    apply not_mem_joinComma (by decide)
    intro v hvmem
    obtain ⟨f, hf, w, rfl⟩ := runValues_mem m.values u v hvmem
    exact hv f hf w
  have hjdst : ']' ∉
      (joinComma (m.dstypes.map (fun d => "\"" ++ d ++ "\""))).data := by
    apply not_mem_joinComma (by decide)
    intro v hvmem
    simp only [List.mem_map] at hvmem
    obtain ⟨d, hd, rfl⟩ := hvmem
    exact not_mem_quoted (by decide) (hdst d hd)
  have hjdsn : ']' ∉
      (joinComma (m.dsnames.map (fun d => "\"" ++ d ++ "\""))).data := by
    apply not_mem_joinComma (by decide)
    intro v hvmem
    simp only [List.mem_map] at hvmem
    obtain ⟨d, hd, rfl⟩ := hvmem
    exact not_mem_quoted (by decide) (hdsn d hd)
  exact ⟨_, decodeMsg_buildMsg m (runValues m.values u).1
      ((now (runValues m.values u).2).1) t p i hjv hjdst hjdsn
      (htime (runValues m.values u).2) hint hhost hname
      (hpin _ (getD_mem_of_lt hp)) (hty _ (getD_mem_of_lt ht))
      (htin _ (getD_mem_of_lt hi)),
    rfl, rfl, rfl, rfl, rfl, rfl⟩

/-- A concrete well-behaved template for the C8 witness. -/
def c8Plugin : plugin Unit :=
  { name := "uptime", hostname := "host000", interval := 5,
    values := [fun u => ("42", u)], dstypes := ["gauge"],
    dsnames := ["value"], mtype := ["uptime"], typeInstance := ["ti0"],
    pluginInstance := ["pi0"] }

/-- A fixed time read for the C8 theorems. -/
def c8Now : PluginFunc Unit := fun u => ("1.0000", u)

/-- Witness for the amended C8 at the concrete template: the single
produced payload decodes back to its construction fields. -/
theorem c8_roundtrip_witness :
    ∃ t p i, t < c8Plugin.mtype.length ∧ p < c8Plugin.pluginInstance.length ∧
      i < c8Plugin.typeInstance.length ∧
      ∃ d, decodeMsg ((getMetricMessage c8Plugin c8Now ()).1.headD "") =
          some d ∧
        d.host = c8Plugin.hostname ∧ d.plugin = c8Plugin.name ∧
        d.plugin_instance = c8Plugin.pluginInstance.getD p "" ∧
        d.mtype = c8Plugin.mtype.getD t "" ∧
        d.type_instance = c8Plugin.typeInstance.getD i "" ∧
        d.intervalStr = toString c8Plugin.interval := by
  have hmem : ((getMetricMessage c8Plugin c8Now ()).1.headD "") ∈
      (getMetricMessage c8Plugin c8Now ()).1 := by
    have h1 : (getMetricMessage c8Plugin c8Now ()).1.length = 1 := rfl
    cases hl : (getMetricMessage c8Plugin c8Now ()).1 with
    | nil => rw [hl] at h1; simp at h1
    | cons a l => simp
  exact c8_roundtrip Unit c8Plugin c8Now ()
    (by
      intro f hf u
      rw [show c8Plugin.values = [fun u => ("42", u)] from rfl,
        List.mem_singleton] at hf
      subst hf
      show ']' ∉ ("42" : String).data
      decide)
    (by intro d hd; rw [show c8Plugin.dstypes = ["gauge"] from rfl,
      List.mem_singleton] at hd; subst hd; decide)
    (by intro d hd; rw [show c8Plugin.dsnames = ["value"] from rfl,
      List.mem_singleton] at hd; subst hd; decide)
    (by intro u; show ',' ∉ ("1.0000" : String).data; decide)
    (by decide) (by decide) (by decide)
    (by intro x hx; rw [show c8Plugin.pluginInstance = ["pi0"] from rfl,
      List.mem_singleton] at hx; subst hx; decide)
    (by intro x hx; rw [show c8Plugin.mtype = ["uptime"] from rfl,
      List.mem_singleton] at hx; subst hx; decide)
    (by intro x hx; rw [show c8Plugin.typeInstance = ["ti0"] from rfl,
      List.mem_singleton] at hx; subst hx; decide)
    _ hmem

/-- A template whose hostname embeds an unescaped double quote. -/
def c8BadPlugin : plugin Unit :=
  { name := "p", hostname := "a\"b", interval := 5, values := [],
    dstypes := [], dsnames := [], mtype := ["t"], typeInstance := ["u"],
    pluginInstance := ["v"] }

/-- Counterexample to C8 as stated: the source performs no escaping, so a
hostname containing `"` yields a payload that no longer parses — decoding
fails instead of recovering the host string. -/
theorem c8_counterexample :
    (getMetricMessage c8BadPlugin c8Now ()).1.length = 1 ∧
    decodeMsg ((getMetricMessage c8BadPlugin c8Now ()).1.headD "") =
      none := by
  constructor
  · rfl
  · rfl

/-!
## Claim C3: the acknowledgment tracker (source lines 486-503)
-/

/-- Delivery status of one outcome (`electron.Outcome.Status`). -/
inductive AckStatus where
  | accepted
  | rejected
  | released
  | unsent
deriving DecidableEq

/-- One transport outcome on the ack channel (`electron.Outcome`): status,
optional transport error, and the opaque correlation value passed to
`SendAsync` (the worker's pre-increment lifetime send count). -/
structure Outcome where
  status : AckStatus
  error : Option String
  value : String
deriving DecidableEq

/-- Tracker state: the global ack counter `countAck` and the warnings
logged so far. -/
structure AckState where
  countAck : Nat
  warnings : List AckStatus
deriving DecidableEq

/-- One iteration of the ack-tracker loop body (source lines 489-497):
a transport error is fatal — `log.Fatalf` terminates the whole process
citing the correlation value and the error (modelled as `Except.error`);
otherwise a non-accepted status is logged as a warning; otherwise the
global ack counter is incremented. -/
def ackStep (st : AckState) (o : Outcome) : Except (String × String) AckState :=
  match o.error with
  | some e => Except.error (o.value, e)
  | none =>
    if o.status = AckStatus.accepted then
      Except.ok { st with countAck := st.countAck + 1 }
    else
      Except.ok { st with warnings := st.warnings ++ [o.status] }

/-- The tracker consuming a finite prefix of the outcome feed in order. -/
def ackRun : List Outcome → AckState → Except (String × String) AckState
  | [], st => Except.ok st
  | o :: rest, st =>
    match ackStep st o with
    | Except.error e => Except.error e
    | Except.ok st2 => ackRun rest st2

theorem ackStep_ok_of_no_error {st : AckState} {o : Outcome}
    (h : o.error = none) : ∃ st2, ackStep st o = Except.ok st2 := by
  by_cases hs : o.status = AckStatus.accepted
  · exact ⟨{ st with countAck := st.countAck + 1 }, by simp [ackStep, h, hs]⟩
  · exact ⟨{ st with warnings := st.warnings ++ [o.status] },
      by simp [ackStep, h, hs]⟩

/-- Claim C3: (a) N accepted outcomes increment the global ack counter by
exactly N; (b) an error outcome terminates the process immediately, citing
the correlation value and the error, with every later outcome uncounted;
(c) a non-accepted, error-free outcome is logged as a warning and leaves
the counter unchanged. -/
theorem c3_ack_tracker :
    (∀ (outs : List Outcome) (st : AckState),
      (∀ o ∈ outs, o.error = none ∧ o.status = AckStatus.accepted) →
      ackRun outs st =
        Except.ok ⟨st.countAck + outs.length, st.warnings⟩) ∧
    (∀ (pre post : List Outcome) (o : Outcome) (st : AckState) (e : String),
      (∀ q ∈ pre, q.error = none) → o.error = some e →
      ackRun (pre ++ o :: post) st = Except.error (o.value, e)) ∧
    (∀ (o : Outcome) (st : AckState), o.error = none →
      o.status ≠ AckStatus.accepted →
      ackStep st o = Except.ok ⟨st.countAck, st.warnings ++ [o.status]⟩) := by
  refine ⟨?_, ?_, ?_⟩
  · intro outs
    induction outs with
    | nil => intro st _; simp [ackRun]
    | cons o rest ih =>
      intro st h
      obtain ⟨he, hs⟩ := h o (List.mem_cons_self o rest)
      have hstep : ackStep st o =
          Except.ok ⟨st.countAck + 1, st.warnings⟩ := by
        simp [ackStep, he, hs]
      simp only [ackRun, hstep]
      rw [ih _ (fun x hx => h x (List.mem_cons_of_mem o hx))]
      simp only [List.length_cons]
      have : st.countAck + 1 + rest.length =
          st.countAck + (rest.length + 1) := by omega
      rw [this]
  · intro pre
    induction pre with
    | nil =>
      intro post o st e _ he
      simp [ackRun, ackStep, he]
    | cons q pre ih =>
      intro post o st e hq he
      obtain ⟨st2, hst2⟩ := ackStep_ok_of_no_error
        (hq q (List.mem_cons_self q pre))
      simp only [List.cons_append, ackRun]
      rw [hst2]
      exact ih post o st2 e (fun x hx => hq x (List.mem_cons_of_mem q hx)) he
  · intro o st he hs
    simp [ackStep, he, hs]

/-- Witness for C3: two accepted outcomes drive the counter from 0 to 2,
with no warnings. -/
theorem c3_ack_tracker_witness :
    ackRun [⟨AckStatus.accepted, none, "0"⟩, ⟨AckStatus.accepted, none, "1"⟩]
      ⟨0, []⟩ = Except.ok ⟨0 + 2, []⟩ :=
  c3_ack_tracker.1
    [⟨AckStatus.accepted, none, "0"⟩, ⟨AckStatus.accepted, none, "1"⟩]
    ⟨0, []⟩ (by decide)

/-!
## Claim C4: sender workers and links (source lines 445-483)
-/

/-- One sender worker goroutine of the simulate pipeline, identified by its
`threadIndex`, together with the id of the transport link it sends on. -/
structure SenderWorker where
  threadIndex : Nat
  link : Nat
deriving DecidableEq

/-- The simulate-mode sender setup (source lines 445-483): `con.Sender` is
executed once (line 449), before the worker loop, and each of the
`sendThreads` worker goroutines captures that same sender `s` in its
closure.  Links are numbered in order of `con.Sender` calls; the first
component is the number of such calls performed, the second the per-worker
link assignment. -/
def senderSetup (sendThreads : Nat) : Nat × List SenderWorker :=
  let s := 0
  (1, (List.range sendThreads).map fun idx => ⟨idx, s⟩)

/-- Claim C4 as amended: the setup opens exactly one outbound link no
matter how many sender workers are configured, and every worker sends on
that single shared link. -/
theorem c4_single_shared_link (sendThreads : Nat) :
    (senderSetup sendThreads).1 = 1 ∧
    (senderSetup sendThreads).2.length = sendThreads ∧
    ∀ w ∈ (senderSetup sendThreads).2, w.link = 0 := by
  refine ⟨rfl, by simp [senderSetup], ?_⟩
  intro w hw
  simp only [senderSetup, List.mem_map] at hw
  obtain ⟨idx, _, rfl⟩ := hw
  rfl

/-- Witness for the amended C4 at `sendThreads = 2`: the first worker
sends on link 0. -/
theorem c4_single_shared_link_witness :
    ((senderSetup 2).2.headD ⟨0, 0⟩).link = 0 :=
  (c4_single_shared_link 2).2.2 _ (by decide)

/-- Counterexample to C4 as stated: with `sendThreads = 2` only one
`openSender` call happens (not 2), and workers 0 and 1 use the same
link 0. -/
theorem c4_counterexample :
    (senderSetup 2).1 = 1 ∧ ¬ (senderSetup 2).1 = 2 ∧
    (senderSetup 2).2.map SenderWorker.link = [0, 0] := by
  refine ⟨rfl, by decide, rfl⟩

/-!
## Claim C7: batch-mode pacing (source lines 430-437)
-/

/-- The sleep (nanoseconds) executed at the end of one generation tick
(source lines 435-437): in batch mode (`spread == false`) the code runs
`time.Sleep(time.Duration(intervalSec) * time.Second)`.  The tick's
measured generation `duration` (line 430) is only used by the verbose
report (line 433); it does not enter the sleep, which is why it is an
unused argument here.  In spread mode the post-tick sleep is absent
(pacing happens per host inside the tick). -/
def postGenSleepNs (spread : Bool) (intervalSec : Int)
    (genDurationNs : Int) : Int :=
  if spread = false then intervalSec * 1000000000 else 0

/-- Claim C7 as amended: the batch-mode post-tick sleep is the full
configured interval, independent of the time spent generating, and is
nonnegative whenever the interval is. -/
theorem c7_batch_sleep_full_interval (intervalSec genDurationNs : Int) :
    postGenSleepNs false intervalSec genDurationNs =
      intervalSec * 1000000000 ∧
    (0 ≤ intervalSec →
      0 ≤ postGenSleepNs false intervalSec genDurationNs) := by
  refine ⟨rfl, fun hi => ?_⟩
  show (0 : Int) ≤ intervalSec * 1000000000
  exact mul_nonneg hi (by norm_num)

/-- Witness for the amended C7 at interval 1 s with half a second of
generation time. -/
theorem c7_batch_sleep_full_interval_witness :
    postGenSleepNs false 1 500000000 = 1 * 1000000000 ∧
    0 ≤ postGenSleepNs false 1 500000000 :=
  ⟨(c7_batch_sleep_full_interval 1 500000000).1,
    (c7_batch_sleep_full_interval 1 500000000).2 (by norm_num)⟩

/-- Counterexample to C7 as stated: with a 1 s interval and 0.5 s of
generation time the code sleeps the full 1 s, not interval minus
generation time. -/
theorem c7_counterexample :
    postGenSleepNs false 1 500000000 ≠ 1 * 1000000000 - 500000000 := by
  decide

/-!
## Claim C9: mode dispatch (source lines 348-354)
-/

/-- Observable outcome of the mode dispatch in `main`. -/
structure ModePhase where
  stderrLines : List String
  exitCode : Nat
  senderWorkersStarted : Nat
  ackWorkerStarted : Bool
deriving DecidableEq

/-- The mode dispatch of `main` (source lines 348-354).  `"limit"` runs
`getMessagesLimit` (one sender goroutine, one ack goroutine, `os.Exit(0)`
after the timed run).  Any other string except `"simulate"` prints
`Invalid mode string (simulate/limit): ...` to stderr and plainly
`return`s from `main` — exit code 0 — before the connection is dialed and
before any sender or ack worker is started.  `"simulate"` starts the
pipeline with `sendThreads` sender workers and the ack worker. -/
def mainModePhase (modeString : String) (sendThreads : Nat) : ModePhase :=
  if modeString = "limit" then
    { stderrLines := [], exitCode := 0, senderWorkersStarted := 1,
      ackWorkerStarted := true }
  else if modeString ≠ "simulate" then
    { stderrLines := ["Invalid mode string (simulate/limit): " ++ modeString],
      exitCode := 0, senderWorkersStarted := 0, ackWorkerStarted := false }
  else
    { stderrLines := [], exitCode := 0,
      senderWorkersStarted := sendThreads, ackWorkerStarted := true }

/-- Claim C9 as amended: an invalid mode string is reported to the
operator on stderr and no sender or acknowledgment worker ever starts,
but `main` returns normally, so the process exit code is 0, not
non-zero. -/
theorem c9_invalid_mode (modeString : String) (sendThreads : Nat)
    (h1 : modeString ≠ "simulate") (h2 : modeString ≠ "limit") :
    mainModePhase modeString sendThreads =
      { stderrLines :=
          ["Invalid mode string (simulate/limit): " ++ modeString],
        exitCode := 0, senderWorkersStarted := 0,
        ackWorkerStarted := false } := by
  simp [mainModePhase, h1, h2]

/-- Witness for the amended C9 at the concrete invalid mode `"foo"`. -/
theorem c9_invalid_mode_witness :
    mainModePhase "foo" 1 =
      { stderrLines := ["Invalid mode string (simulate/limit): " ++ "foo"],
        exitCode := 0, senderWorkersStarted := 0,
        ackWorkerStarted := false } :=
  c9_invalid_mode "foo" 1 (by decide) (by decide)

/-- Counterexample to C9 as stated: for mode `"foo"` the error is reported
but the exit code is 0, not non-zero. -/
theorem c9_counterexample :
    (mainModePhase "foo" 1).stderrLines ≠ [] ∧
    (mainModePhase "foo" 1).exitCode = 0 := by
  refine ⟨by decide, rfl⟩

end TelemetryBench
